import Mathlib

/-!
Shallow embedding of the two WaterButler storage-backend adapters
(`waterbutler/providers/box/provider.py` and
`waterbutler/providers/owncloud/provider.py`) and proofs about them.

The HTTP transport is modelled as an oracle mapping each request an adapter
can issue to a response (status plus parsed body).  Every adapter operation
is a pure function of that oracle returning the list of requests it issued
together with either its result or the raised error.
-/

namespace WaterButler

/-- The error taxonomy of `waterbutler.core.exceptions` (spec section 7).
`crash` is not part of the taxonomy: it models an uncaught language-level
exception (`KeyError` / `TypeError` / `IndexError`) escaping the adapter. -/
inductive ErrKind where
  | invalidPathError
  | metadataError
  | downloadError
  | uploadError
  | deleteError
  | revisionsError
  | crash
  deriving DecidableEq, Repr

/-- A raised error: its taxonomy kind and, when it was triggered by an HTTP
response, the response status code. -/
structure WBError where
  kind : ErrKind
  code : Option Nat
  deriving DecidableEq, Repr

/-- Modelled from the spec: `BaseProvider.make_request`
(`waterbutler/core/provider.py`, not in `src/`) — sends one request and, per
spec section 7, raises the call site's `throws` error kind carrying the
response status whenever that status lies outside the call site's `expects`
set; exactly one attempt is made, with no retry. -/
def makeRequest (status : Nat) (expects : List Nat) (throws : ErrKind) :
    Except WBError Unit :=
  if status ∈ expects then Except.ok () else Except.error ⟨throws, some status⟩

/-- Minimal JSON values, enough for the fields the Box adapter reads. -/
inductive Json where
  | null
  | str (s : String)
  | num (n : Int)
  | arr (elems : List Json)
  | obj (fields : List (String × Json))

/-- Python truthiness of a JSON value (`if data:`). -/
def Json.truthy : Json → Bool
  | .null => false
  | .str s => s != ""
  | .num n => n != 0
  | .arr l => !l.isEmpty
  | .obj l => !l.isEmpty

/-- Dictionary access `j[k]`; `none` models the `KeyError`/`TypeError` a
Python subscript raises on a missing key or a non-dict value. -/
def Json.idx : Json → String → Option Json
  | .obj fields, k => fields.lookup k
  | _, _ => none

/-- `j[k]` read as a string, with a default for absent/non-string values. -/
def Json.getStrD (j : Json) (k : String) (d : String) : String :=
  match j.idx k with
  | some (.str s) => s
  | _ => d

/-- `data['entries'][0]`; `none` models the `KeyError`/`IndexError` crash on
a missing key, a non-list value, or an empty list. -/
def Json.entries0 (j : Json) : Option Json :=
  match j.idx "entries" with
  | some (.arr (x :: _)) => some x
  | _ => none

/-- Python's `str.split(sep)` for a one-character separator, on the
character list of the string. -/
def splitChars : List Char → List (List Char)
  | [] => [[]]
  | c :: cs =>
    if c = '/' then [] :: splitChars cs
    else (c :: (splitChars cs).headD []) :: (splitChars cs).tail

theorem splitChars_ne_nil (cs : List Char) : splitChars cs ≠ [] := by
  cases cs with
  | nil => simp [splitChars]
  | cons c cs =>
    by_cases h : c = '/' <;> simp [splitChars, h]

theorem splitChars_headD (cs : List Char) :
    (splitChars cs).headD [] = cs.takeWhile (fun c => c ≠ '/') := by
  induction cs with
  | nil => simp [splitChars]
  | cons c cs ih =>
    by_cases h : c = '/'
    · simp [splitChars, h, List.takeWhile]
    · rcases hs : splitChars cs with _ | ⟨seg, rest⟩
      · exact absurd hs (splitChars_ne_nil cs)
      · rw [hs] at ih
        simp only [List.headD] at ih
        simp [splitChars, h, hs, List.takeWhile, ih]

/-- `BoxPath.__init__` (`box/provider.py` lines 22-27): the identity token is
the whole string for the root path, otherwise `path.split('/')[1]`. -/
def boxIdOf (path : String) : String :=
  if path = "/" then path
  else String.mk ((splitChars path.data).getD 1 [])

/-- The Box path model (`box/provider.py` lines 20-30): the original string
plus the identity token computed once at construction. -/
structure BoxPath where
  orig : String
  _id : String
  deriving DecidableEq, Repr

/-- Construction of a `BoxPath` from a raw path string. -/
def BoxPath.make (path : String) : BoxPath :=
  { orig := path, _id := boxIdOf path }

/-- Modelled from the spec (section 3): `WaterButlerPath.is_dir`
(`waterbutler/core/utils.py`, not in `src/`) — directories are
suffix-delimited by a trailing separator. -/
def isDirPath (path : String) : Bool :=
  path.data.getLast? = some '/'

/-- Modelled from the spec (section 3): `WaterButlerPath.is_file` — a path is
a file exactly when it is not a directory. -/
def isFilePath (path : String) : Bool :=
  !(isDirPath path)

/-- Modelled from the spec (section 4.1): `WaterButlerPath.name`
(`waterbutler/core/utils.py`, not in `src/`) — the final path segment. -/
def nameOf (path : String) : String :=
  String.mk ((splitChars path.data).getLastD [])

/-- Model of Python's `os.path.join` for two arguments
(`box/provider.py` line 69). -/
def osPathJoin (a b : String) : String :=
  if b.data.head? = some '/' then b
  else if a = "" then b
  else if a.data.getLast? = some '/' then a ++ b
  else a ++ "/" ++ b

/-- The spec's reading of the identity token for a non-root path: the first
segment after the leading separator (spec section 4.3 with section 3). -/
def specFirstSegment (path : String) : String :=
  String.mk ((path.data.drop 1).takeWhile (fun c => c ≠ '/'))

/-- Modelled from the spec (section 3): the canonical metadata record
produced by `BoxFileMetadata.serialized` / `BoxFolderMetadata.serialized`
(`waterbutler/providers/box/metadata.py`, not in `src/`): its canonical path
begins at the namespace root and embeds the backend identifier as the first
segment, followed by the name. -/
structure MetadataRecord where
  name : String
  path : String
  deriving DecidableEq, Repr

/-- Modelled from the spec: `BoxFileMetadata(data, folder).serialized()`. -/
def boxFileMetadataSerialized (data : Json) (_folder : String) : MetadataRecord :=
  { name := data.getStrD "name" ""
  , path := "/" ++ data.getStrD "id" "" ++ "/" ++ data.getStrD "name" "" }

/-- Modelled from the spec: `BoxFolderMetadata(data, folder).serialized()` —
as a directory, its canonical path carries the trailing separator. -/
def boxFolderMetadataSerialized (data : Json) (_folder : String) : MetadataRecord :=
  { name := data.getStrD "name" ""
  , path := "/" ++ data.getStrD "id" "" ++ "/" ++ data.getStrD "name" "" ++ "/" }

/-- The result of `BoxProvider.metadata`: one record for a file path, the
list of the root folder's children for a directory path. -/
inductive BoxMeta where
  | file (m : MetadataRecord)
  | folder (l : List MetadataRecord)

/-- The requests the Box adapter can issue, by endpoint
(`build_url` / `_build_upload_url` call sites in `box/provider.py`). -/
inductive BoxReq where
  | fileMeta (id : String)
  | folderItems (folder : String)
  | versions (id : String)
  | downloadContent (id : String) (version : Option String)
  | deleteFile (id : String)
  | uploadCreate (parentId : String) (name : String)
  | uploadUpdate (fileId : String) (parentId : String) (name : String)
  deriving DecidableEq, Repr

/-- A backend response: HTTP status plus parsed JSON body. -/
structure BoxResp where
  status : Nat
  body : Json

/-- The transport oracle for the Box adapter. -/
def BoxBackend : Type := BoxReq → BoxResp

/-- A lazily-read response stream (`streams.ResponseStreamReader(resp)`);
only the originating status is retained, the content is opaque. -/
structure ResponseStream where
  status : Nat
  deriving DecidableEq, Repr

/-- `BoxProvider._get_file_meta` (`box/provider.py` lines 135-147). -/
def boxFileMeta (folder : String) (bk : BoxBackend) (path : BoxPath) :
    List BoxReq × Except WBError MetadataRecord :=
  let req := BoxReq.fileMeta path._id
  let resp := bk req
  match makeRequest resp.status [200] ErrKind.metadataError with
  | .error e => ([req], .error e)
  | .ok _ =>
    if resp.body.truthy then
      ([req], .ok (boxFileMetadataSerialized resp.body folder))
    else
      ([req], .error ⟨ErrKind.metadataError, none⟩)

/-- `item['type'] == 'folder'` (`box/provider.py` line 161); a present
non-string value compares unequal without raising. -/
def isFolderType (it : Json) : Bool :=
  match it.idx "type" with
  | some (Json.str t) => t = "folder"
  | _ => false

/-- `BoxProvider._get_folder_meta` (`box/provider.py` lines 149-165): lists
the configured root folder's items and classifies each by its type tag. -/
def boxFolderMeta (folder : String) (bk : BoxBackend) :
    List BoxReq × Except WBError (List MetadataRecord) :=
  let req := BoxReq.folderItems folder
  let resp := bk req
  match makeRequest resp.status [200] ErrKind.metadataError with
  | .error e => ([req], .error e)
  | .ok _ =>
    match resp.body.idx "entries" with
    | some (Json.arr items) =>
      if items.all (fun it => (it.idx "type").isSome) then
        ([req], .ok (items.map (fun it =>
          if isFolderType it then boxFolderMetadataSerialized it folder
          else boxFileMetadataSerialized it folder)))
      else ([req], .error ⟨ErrKind.crash, none⟩)
    | _ => ([req], .error ⟨ErrKind.crash, none⟩)

/-- `BoxProvider.metadata` (`box/provider.py` lines 98-105). -/
def boxMetadata (folder : String) (bk : BoxBackend) (p : String) :
    List BoxReq × Except WBError BoxMeta :=
  let path := BoxPath.make p
  if isFilePath p then
    let r := boxFileMeta folder bk path
    (r.1, r.2.map BoxMeta.file)
  else
    let r := boxFolderMeta folder bk
    (r.1, r.2.map BoxMeta.folder)

/-- `BoxProvider.download` (`box/provider.py` lines 48-65): the `version`
query parameter is sent only when `revision` is truthy (non-`None` and
non-empty) and differs from the path's identity token. -/
def boxDownload (bk : BoxBackend) (p : String) (revision : Option String) :
    List BoxReq × Except WBError ResponseStream :=
  let path := BoxPath.make p
  let useVersion :=
    match revision with
    | none => false
    | some r => r != "" && r != path._id
  if useVersion then
    let req := BoxReq.downloadContent path._id revision
    let resp := bk req
    match makeRequest resp.status [200] ErrKind.downloadError with
    | .error e => ([req], .error e)
    | .ok _ => ([req], .ok ⟨resp.status⟩)
  else
    let req := BoxReq.downloadContent path._id none
    let resp := bk req
    match makeRequest resp.status [200] ErrKind.downloadError with
    | .error e => ([req], .error e)
    | .ok _ => ([req], .ok ⟨resp.status⟩)

/-- `BoxProvider.delete` (`box/provider.py` lines 81-96): a metadata call
verifies the path before the destructive request is issued. -/
def boxDelete (folder : String) (bk : BoxBackend) (p : String) :
    List BoxReq × Except WBError Unit :=
  let path := BoxPath.make p
  let probe := boxMetadata folder bk p
  match probe.2 with
  | .error e => (probe.1, .error e)
  | .ok _ =>
    let req := BoxReq.deleteFile path._id
    let resp := bk req
    match makeRequest resp.status [204] ErrKind.deleteError with
    | .error e => (probe.1 ++ [req], .error e)
    | .ok _ => (probe.1 ++ [req], .ok ())

/-- `BoxProvider.upload` (`box/provider.py` lines 67-79) together with
`_upload_create` (lines 167-181) and `_upload_update` (lines 183-199):
probe `metadata`, catch `MetadataError` as the create signal, otherwise
update against the identifier taken from the metadata result's path. -/
def boxUpload (folder : String) (bk : BoxBackend) (p : String) :
    List BoxReq × Except WBError (MetadataRecord × Bool) :=
  let joined := osPathJoin folder p
  let path := BoxPath.make joined
  let probe := boxMetadata folder bk joined
  match probe.2 with
  | .error e =>
    if e.kind = ErrKind.metadataError then
      let req := BoxReq.uploadCreate path._id (nameOf joined)
      let resp := bk req
      match makeRequest resp.status [200, 201] ErrKind.uploadError with
      | .error e' => (probe.1 ++ [req], .error e')
      | .ok _ =>
        match resp.body.entries0 with
        | some item =>
          (probe.1 ++ [req], .ok (boxFileMetadataSerialized item folder, true))
        | none => (probe.1 ++ [req], .error ⟨ErrKind.crash, none⟩)
    else (probe.1, .error e)
  | .ok (BoxMeta.folder _) => (probe.1, .error ⟨ErrKind.crash, none⟩)
  | .ok (BoxMeta.file m) =>
    let metaPath := BoxPath.make m.path
    let req := BoxReq.uploadUpdate metaPath._id path._id (nameOf joined)
    let resp := bk req
    match makeRequest resp.status [200, 201] ErrKind.uploadError with
    | .error e' => (probe.1 ++ [req], .error e')
    | .ok _ =>
      match resp.body.entries0 with
      | some item =>
        (probe.1 ++ [req], .ok (boxFileMetadataSerialized item folder, false))
      | none => (probe.1 ++ [req], .error ⟨ErrKind.crash, none⟩)

/-- A revision record: its 1-based index plus its descriptive payload
(either the serialized current metadata or a raw backend version entry). -/
inductive RevPayload where
  | fromMeta (m : MetadataRecord)
  | fromRaw (j : Json)

/-- Modelled from the spec (section 3): `BoxRevision(item).serialized()`
(`waterbutler/providers/box/metadata.py`, not in `src/`) preserves the
1-based revision index written into the item. -/
structure RevisionRecord where
  revision : Nat
  payload : RevPayload

/-- The `for item in data['entries']` loop of `BoxProvider.revisions`
(`box/provider.py` lines 128-131): each entry is numbered with the next
index, preserving the backend's return order. -/
def numberRevisionsFrom : Nat → List Json → List RevisionRecord
  | _, [] => []
  | idx, it :: rest =>
    ⟨idx, RevPayload.fromRaw it⟩ :: numberRevisionsFrom (idx + 1) rest

/-- `BoxProvider.revisions` (`box/provider.py` lines 108-133): the current
version is synthesized as revision 1 from a fresh metadata call and
backend-supplied entries are appended starting at revision 2. -/
def boxRevisions (folder : String) (bk : BoxBackend) (p : String) :
    List BoxReq × Except WBError (List RevisionRecord) :=
  let path := BoxPath.make p
  let req := BoxReq.versions path._id
  let resp := bk req
  match makeRequest resp.status [200] ErrKind.revisionsError with
  | .error e => ([req], .error e)
  | .ok _ =>
    let probe := boxMetadata folder bk p
    match probe.2 with
    | .error e => (req :: probe.1, .error e)
    | .ok (BoxMeta.folder _) => (req :: probe.1, .error ⟨ErrKind.crash, none⟩)
    | .ok (BoxMeta.file m) =>
      match resp.body.idx "entries" with
      | some (Json.arr items) =>
        (req :: probe.1,
          .ok (⟨1, RevPayload.fromMeta m⟩ :: numberRevisionsFrom 2 items))
      | _ => (req :: probe.1, .error ⟨ErrKind.crash, none⟩)

/-- An XML element as `xml.etree.ElementTree` exposes it: qualified tag,
text, and child elements. -/
inductive XmlNode where
  | elem (tag : String) (text : Option String) (children : List XmlNode)

/-- The qualified tag of an element. -/
def XmlNode.tag : XmlNode → String
  | .elem t _ _ => t

/-- The text of an element. -/
def XmlNode.text : XmlNode → Option String
  | .elem _ tx _ => tx

/-- The direct children of an element. -/
def XmlNode.children : XmlNode → List XmlNode
  | .elem _ _ cs => cs

/-- `Element.find(tag)`: the first direct child whose qualified tag equals
`tag` exactly. -/
def XmlNode.findTag (x : XmlNode) (t : String) : Option XmlNode :=
  x.children.find? (fun c => c.tag == t)

/-- The qualified WebDAV tag `{DAV:}propstat`. -/
def davPropstat : String := "\x7bDAV:\x7dpropstat"

/-- The qualified WebDAV tag `{DAV:}prop`. -/
def davProp : String := "\x7bDAV:\x7dprop"

/-- The requests the OwnCloud adapter can issue, each against the computed
WebDAV URL for the given path. -/
inductive OCReq where
  | propfind (url : String)
  | get (url : String)
  | put (url : String) (contentLength : Nat)
  | delete (url : String)
  deriving DecidableEq, Repr

/-- An OwnCloud backend response: HTTP status plus the parsed XML body (only
PROPFIND responses are ever parsed). -/
structure OCResp where
  status : Nat
  xml : XmlNode

/-- The transport oracle for the OwnCloud adapter. -/
def OCBackend : Type := OCReq → OCResp

/-- Modelled from the spec (section 4.5): `OwnCloudFileMetadata.serialized`
(`waterbutler/providers/owncloud/metadata.py`, not in `src/`) — the path it
was built from plus the flat property mapping keyed by qualified tag name. -/
structure OCFileMeta where
  path : String
  attrs : List (String × Option String)
  deriving DecidableEq, Repr

/-- `OwnCloudProvider._metadata_file` (`owncloud/provider.py` lines 52-72):
a PROPFIND expecting 207, whose tree response yields the first
property-status block's property set as a flat mapping. -/
def ocMetadataFile (webdavUrl : String) (bk : OCBackend) (p : String) :
    List OCReq × Except WBError OCFileMeta :=
  let req := OCReq.propfind (webdavUrl ++ p)
  let resp := bk req
  match makeRequest resp.status [207] ErrKind.metadataError with
  | .error e => ([req], .error e)
  | .ok _ =>
    match resp.xml.children.head? with
    | none => ([req], .error ⟨ErrKind.crash, none⟩)
    | some first =>
      match first.findTag davPropstat with
      | none => ([req], .error ⟨ErrKind.crash, none⟩)
      | some ps =>
        match ps.findTag davProp with
        | none => ([req], .error ⟨ErrKind.crash, none⟩)
        | some pr =>
          ([req],
            .ok { path := p
                , attrs := pr.children.map (fun a => (a.tag, a.text)) })

/-- `OwnCloudProvider.metadata` (`owncloud/provider.py` lines 38-50) with
`_metadata_folder` (lines 74-76), whose body is `pass`: a directory path
yields `None` without any request. -/
def ocMetadata (webdavUrl : String) (bk : OCBackend) (p : String) :
    List OCReq × Except WBError (Option OCFileMeta) :=
  if isDirPath p then ([], .ok none)
  else
    let r := ocMetadataFile webdavUrl bk p
    (r.1, r.2.map some)

/-- `OwnCloudProvider.download` (`owncloud/provider.py` lines 78-95): a
non-file path raises `DownloadError` with code 400 before any request. -/
def ocDownload (webdavUrl : String) (bk : OCBackend) (p : String) :
    List OCReq × Except WBError ResponseStream :=
  if !(isFilePath p) then
    ([], .error ⟨ErrKind.downloadError, some 400⟩)
  else
    let req := OCReq.get (webdavUrl ++ p)
    let resp := bk req
    match makeRequest resp.status [200] ErrKind.downloadError with
    | .error e => ([req], .error e)
    | .ok _ => ([req], .ok ⟨resp.status⟩)

/-- `OwnCloudProvider.upload` (`owncloud/provider.py` lines 97-111): a PUT
of the raw body against the computed URL, expecting 201, returning the bare
value `True` — no metadata record and no created flag. -/
def ocUpload (webdavUrl : String) (bk : OCBackend) (streamSize : Nat)
    (p : String) : List OCReq × Except WBError Bool :=
  let req := OCReq.put (webdavUrl ++ p) streamSize
  let resp := bk req
  match makeRequest resp.status [201] ErrKind.uploadError with
  | .error e => ([req], .error e)
  | .ok _ => ([req], .ok true)

/-- `OwnCloudProvider.delete` (`owncloud/provider.py` lines 114-126): a
DELETE against the computed URL expecting 204, with no existence probe. -/
def ocDelete (webdavUrl : String) (bk : OCBackend) (p : String) :
    List OCReq × Except WBError Bool :=
  let req := OCReq.delete (webdavUrl ++ p)
  let resp := bk req
  match makeRequest resp.status [204] ErrKind.deleteError with
  | .error e => ([req], .error e)
  | .ok _ => ([req], .ok true)

/-! ## Concrete backends and fixtures used by witnesses and counterexamples -/

/-- A Box backend on which the probed file is absent (404 on metadata), and a
create-upload succeeds, the backend assigning the fresh file id `999`. -/
def bkBoxAbsent : BoxBackend := fun req =>
  match req with
  | .fileMeta _ => ⟨404, Json.null⟩
  | .uploadCreate _ _ =>
    ⟨201, Json.obj [("entries", Json.arr
      [Json.obj [("id", Json.str "999"), ("name", Json.str "f.txt")]])]⟩
  | _ => ⟨500, Json.null⟩

/-- A Box backend on which file `123` exists under the name `f.txt` but was
relocated by the backend to id `777`; an update-upload succeeds. -/
def bkBoxPresent : BoxBackend := fun req =>
  match req with
  | .fileMeta _ =>
    ⟨200, Json.obj [("id", Json.str "777"), ("name", Json.str "f.txt")]⟩
  | .uploadUpdate _ _ _ =>
    ⟨200, Json.obj [("entries", Json.arr
      [Json.obj [("id", Json.str "777"), ("name", Json.str "f.txt")]])]⟩
  | .deleteFile _ => ⟨204, Json.null⟩
  | .versions _ =>
    ⟨200, Json.obj [("entries", Json.arr
      [Json.obj [("id", Json.str "old2")], Json.obj [("id", Json.str "old1")]])]⟩
  | .downloadContent _ _ => ⟨200, Json.null⟩
  | _ => ⟨500, Json.null⟩

/-- A Box backend whose every response is a 500 with an empty body. -/
def bkBox500 : BoxBackend := fun _ => ⟨500, Json.null⟩

/-- An OwnCloud backend on which every path already exists: a PUT overwrites
in place (201), a DELETE succeeds (204), a GET succeeds (200). -/
def bkOCPlain : OCBackend := fun req =>
  match req with
  | .put _ _ => ⟨201, XmlNode.elem "" none []⟩
  | .delete _ => ⟨204, XmlNode.elem "" none []⟩
  | .get _ => ⟨200, XmlNode.elem "" none []⟩
  | .propfind _ => ⟨207, XmlNode.elem "" none []⟩

/-- An OwnCloud backend whose every response is a 404. -/
def bkOC404 : OCBackend := fun _ => ⟨404, XmlNode.elem "" none []⟩

/-- A PROPFIND response tree with a decoy element whose unqualified tag is
`propstat`, then two qualified `\x7bDAV:\x7dpropstat` blocks with different
property sets: only the first qualified block must be extracted. -/
def ocTree : XmlNode :=
  XmlNode.elem "\x7bDAV:\x7dmultistatus" none
    [XmlNode.elem "\x7bDAV:\x7dresponse" none
      [XmlNode.elem "propstat" none
        [XmlNode.elem davProp none
          [XmlNode.elem "decoy" (some "x") []]],
       XmlNode.elem davPropstat none
        [XmlNode.elem davProp none
          [XmlNode.elem "\x7bDAV:\x7dgetcontentlength" (some "5") [],
           XmlNode.elem "\x7bDAV:\x7dgetetag" (some "etag1") []],
         XmlNode.elem "\x7bDAV:\x7dstatus" (some "HTTP/1.1 200 OK") []],
       XmlNode.elem davPropstat none
        [XmlNode.elem davProp none
          [XmlNode.elem "\x7bDAV:\x7dgetcontentlength" (some "7") []]]]]

/-- An OwnCloud backend answering every PROPFIND with status 207 and
`ocTree`. -/
def bkOCTree : OCBackend := fun _ => ⟨207, ocTree⟩

/-- The revision list `bkBoxPresent` yields for `/123/f.txt`: the current
version synthesized at index 1, the two backend entries at 2 and 3. -/
def revListW : List RevisionRecord :=
  [⟨1, RevPayload.fromMeta ⟨"f.txt", "/777/f.txt"⟩⟩,
   ⟨2, RevPayload.fromRaw (Json.obj [("id", Json.str "old2")])⟩,
   ⟨3, RevPayload.fromRaw (Json.obj [("id", Json.str "old1")])⟩]

/-! ## Helper lemmas -/

@[simp] theorem BoxPath.make_id (p : String) : (BoxPath.make p)._id = boxIdOf p := rfl

@[simp] theorem BoxPath.make_orig (p : String) : (BoxPath.make p).orig = p := rfl

theorem makeRequest_eq_error (s : Nat) (exp : List Nat) (t : ErrKind)
    (e : WBError) (h : makeRequest s exp t = .error e) :
    e.kind = t ∧ e.code = some s ∧ s ∉ exp := by
  by_cases hs : s ∈ exp <;> simp [makeRequest, hs] at h
  exact ⟨by rw [← h], by rw [← h], hs⟩

theorem makeRequest_eq_ok (s : Nat) (exp : List Nat) (t : ErrKind)
    (h : s ∈ exp) : makeRequest s exp t = .ok () := by
  simp [makeRequest, h]

theorem boxFileMeta_trace (f : String) (bk : BoxBackend) (path : BoxPath) :
    (boxFileMeta f bk path).1 = [BoxReq.fileMeta path._id] := by
  simp only [boxFileMeta]
  split
  · rfl
  · split <;> rfl

theorem boxFileMeta_error (f : String) (bk : BoxBackend) (path : BoxPath)
    (e : WBError) (h : (boxFileMeta f bk path).2 = .error e) :
    e.kind = ErrKind.metadataError := by
  simp only [boxFileMeta] at h
  split at h
  · rename_i e' he
    simp at h
    exact h ▸ (makeRequest_eq_error _ _ _ _ he).1
  · split at h <;> simp at h
    rw [← h]

theorem boxFileMeta_error_code (f : String) (bk : BoxBackend) (path : BoxPath)
    (e : WBError) (c : Nat) (h : (boxFileMeta f bk path).2 = .error e)
    (hc : e.code = some c) : e.kind = ErrKind.metadataError ∧ c ≠ 200 := by
  simp only [boxFileMeta] at h
  split at h
  · rename_i e' he
    simp at h
    subst h
    obtain ⟨hk, hcode, hout⟩ := makeRequest_eq_error _ _ _ _ he
    rw [hcode] at hc
    refine ⟨hk, ?_⟩
    rintro rfl
    rw [Option.some_inj] at hc
    exact hout (by simp [hc])
  · split at h <;> simp at h
    subst h
    simp at hc

theorem boxFolderMeta_trace (f : String) (bk : BoxBackend) :
    (boxFolderMeta f bk).1 = [BoxReq.folderItems f] := by
  simp only [boxFolderMeta]
  split
  · rfl
  · split
    · split <;> rfl
    · rfl

theorem boxFolderMeta_error_code (f : String) (bk : BoxBackend)
    (e : WBError) (c : Nat) (h : (boxFolderMeta f bk).2 = .error e)
    (hc : e.code = some c) : e.kind = ErrKind.metadataError ∧ c ≠ 200 := by
  simp only [boxFolderMeta] at h
  split at h
  · rename_i e' he
    simp at h
    subst h
    obtain ⟨hk, hcode, hout⟩ := makeRequest_eq_error _ _ _ _ he
    rw [hcode] at hc
    refine ⟨hk, ?_⟩
    rintro rfl
    rw [Option.some_inj] at hc
    exact hout (by simp [hc])
  · split at h
    · split at h <;> simp at h
      subst h
      simp at hc
    · simp at h
      subst h
      simp at hc

theorem boxMetadata_trace (f : String) (bk : BoxBackend) (p : String) :
    (boxMetadata f bk p).1 = [BoxReq.fileMeta (boxIdOf p)] ∨
      (boxMetadata f bk p).1 = [BoxReq.folderItems f] := by
  simp only [boxMetadata]
  by_cases hf : isFilePath p <;>
    simp [hf, boxFileMeta_trace, boxFolderMeta_trace]

theorem boxMetadata_error_code (f : String) (bk : BoxBackend) (p : String)
    (e : WBError) (c : Nat) (h : (boxMetadata f bk p).2 = .error e)
    (hc : e.code = some c) : e.kind = ErrKind.metadataError ∧ c ≠ 200 := by
  simp only [boxMetadata] at h
  by_cases hf : isFilePath p <;> simp [hf] at h
  · rcases hfm : (boxFileMeta f bk (BoxPath.make p)).2 with e' | v <;>
      rw [hfm] at h <;> simp [Except.map] at h
    subst h
    exact boxFileMeta_error_code f bk _ _ c hfm hc
  · rcases hfm : (boxFolderMeta f bk).2 with e' | v <;>
      rw [hfm] at h <;> simp [Except.map] at h
    subst h
    exact boxFolderMeta_error_code f bk _ c hfm hc

theorem numberRevisionsFrom_getElem (items : List Json) (k i : Nat)
    (hi : i < (numberRevisionsFrom k items).length) :
    ((numberRevisionsFrom k items)[i]).revision = k + i := by
  induction items generalizing k i with
  | nil => simp [numberRevisionsFrom] at hi
  | cons it rest ih =>
    cases i with
    | zero => simp [numberRevisionsFrom]
    | succ n =>
      simp only [numberRevisionsFrom, List.getElem_cons_succ]
      rw [ih]
      omega

theorem numberRevisionsFrom_map_payload (items : List Json) (k : Nat) :
    (numberRevisionsFrom k items).map RevisionRecord.payload =
      items.map RevPayload.fromRaw := by
  induction items generalizing k with
  | nil => rfl
  | cons it rest ih => simp [numberRevisionsFrom, ih]

/-! ## Claim theorems -/

/-- C3: whenever the Box adapter's `revisions` returns, the returned list is
non-empty, its indices are 1-based, strictly increasing and contiguous, the
entry at index 1 is the current version synthesized from a fresh metadata
call (whose request follows the versions request in the trace), and the
backend's version entries follow in their returned order starting at 2. -/
theorem c3_box_revisions_indices (f : String) (bk : BoxBackend) (p : String)
    (t : List BoxReq) (l : List RevisionRecord)
    (h : boxRevisions f bk p = (t, Except.ok l)) :
    l ≠ [] ∧
    (∀ i (hi : i < l.length), (l[i]).revision = i + 1) ∧
    (∃ m items,
      (boxMetadata f bk p).2 = Except.ok (BoxMeta.file m) ∧
      (bk (BoxReq.versions (boxIdOf p))).body.idx "entries" =
        some (Json.arr items) ∧
      l.map RevisionRecord.payload =
        RevPayload.fromMeta m :: items.map RevPayload.fromRaw ∧
      t = BoxReq.versions (boxIdOf p) :: (boxMetadata f bk p).1) := by
  simp only [boxRevisions, BoxPath.make_id] at h
  split at h
  · simp at h
  · split at h
    · simp at h
    · simp at h
    · rename_i m hm
      split at h
      · rename_i items hitems
        rw [Prod.mk.injEq] at h
        obtain ⟨ht, hl⟩ := h
        rw [Except.ok.injEq] at hl
        subst ht
        subst hl
        refine ⟨by simp, ?_, m, items, hm, hitems,
          by simp [numberRevisionsFrom_map_payload], rfl⟩
        intro i hi
        cases i with
        | zero => rfl
        | succ n =>
          simp only [List.getElem_cons_succ]
          rw [numberRevisionsFrom_getElem]
          omega
      · simp at h

/-- Witness for C3: against `bkBoxPresent`, `revisions` of `/123/f.txt`
returns the three-entry list `revListW`, which is non-empty. -/
theorem c3_box_revisions_indices_witness :
    boxRevisions "0" bkBoxPresent "/123/f.txt" =
      ([BoxReq.versions "123", BoxReq.fileMeta "123"], Except.ok revListW) ∧
    revListW ≠ [] :=
  ⟨by rfl,
   (c3_box_revisions_indices "0" bkBoxPresent "/123/f.txt"
      [BoxReq.versions "123", BoxReq.fileMeta "123"] revListW (by rfl)).1⟩

theorem downloadBranch_error (bk : BoxBackend) (req : BoxReq) (e : WBError)
    (h : (match makeRequest (bk req).status [200] ErrKind.downloadError with
          | Except.error e' => ([req], Except.error e')
          | Except.ok _ =>
            ([req], Except.ok (⟨(bk req).status⟩ : ResponseStream))).2
        = Except.error e) :
    e.kind = ErrKind.downloadError ∧ ∃ c, e.code = some c ∧ c ≠ 200 := by
  split at h
  · rename_i e' he
    simp at h
    subst h
    obtain ⟨hk, hc, hout⟩ := makeRequest_eq_error _ _ _ _ he
    exact ⟨hk, _, hc, by simpa using hout⟩
  · simp at h

/-- C6 counterexample: with path `/123/f.txt` and the revision supplied as
the empty string, the revision is supplied and differs from the path's
identity token, yet the adapter issues the request without the version
parameter — the claimed equivalence fails at this input. -/
theorem c6_counterexample :
    ¬ (((boxDownload bkBoxPresent "/123/f.txt" (some "")).1 =
          [BoxReq.downloadContent "123" (some "")]) ↔
        ((some "" : Option String) ≠ none ∧ "" ≠ boxIdOf "/123/f.txt")) := by
  decide

/-- C6 amended: the Box adapter passes the version query parameter exactly
when the revision is supplied, non-empty (Python truthiness) and different
from the path's identity token (the adapter's notion of the current version
identifier); otherwise it fetches the current content; in both cases any
raised error is a `DownloadError` carrying the non-200 response status. -/
theorem c6_amended_download_version (bk : BoxBackend) (p : String)
    (rev : Option String) :
    ((∃ r, rev = some r ∧ r ≠ "" ∧ r ≠ boxIdOf p) →
      (boxDownload bk p rev).1 = [BoxReq.downloadContent (boxIdOf p) rev]) ∧
    ((¬ ∃ r, rev = some r ∧ r ≠ "" ∧ r ≠ boxIdOf p) →
      (boxDownload bk p rev).1 = [BoxReq.downloadContent (boxIdOf p) none]) ∧
    (∀ e, (boxDownload bk p rev).2 = Except.error e →
      e.kind = ErrKind.downloadError ∧ ∃ c, e.code = some c ∧ c ≠ 200) := by
  refine ⟨?_, ?_, ?_⟩
  · rintro ⟨r, rfl, hne, hnid⟩
    have h1 : (r != "") = true := by simp [bne_iff_ne, hne]
    have h2 : (r != boxIdOf p) = true := by simp [bne_iff_ne, hnid]
    simp only [boxDownload, BoxPath.make_id, h1, h2, Bool.and_self, if_true]
    split <;> rfl
  · intro hnot
    rcases rev with _ | r
    · simp only [boxDownload, BoxPath.make_id, Bool.false_eq_true, if_false]
      split <;> rfl
    · have hor : r = "" ∨ r = boxIdOf p := by
        by_contra hc
        push_neg at hc
        exact hnot ⟨r, rfl, hc.1, hc.2⟩
      have hcond : (r != "" && r != boxIdOf p) = false := by
        rcases hor with rfl | h
        · simp
        · simp [h]
      simp only [boxDownload, BoxPath.make_id, hcond, Bool.false_eq_true,
        if_false]
      split <;> rfl
  · intro e he
    simp only [boxDownload, BoxPath.make_id] at he
    split at he
    · exact downloadBranch_error bk _ e he
    · exact downloadBranch_error bk _ e he

theorem boxMetadata_no_delete (f : String) (bk : BoxBackend) (p : String)
    (id : String) : BoxReq.deleteFile id ∉ (boxMetadata f bk p).1 := by
  rcases boxMetadata_trace f bk p with h | h <;> simp [h]

theorem boxMetadata_no_create (f : String) (bk : BoxBackend) (p : String)
    (pid nm : String) :
    BoxReq.uploadCreate pid nm ∉ (boxMetadata f bk p).1 := by
  rcases boxMetadata_trace f bk p with h | h <;> simp [h]

theorem boxUpload_created_true (f : String) (bk : BoxBackend) (p : String)
    (e : WBError)
    (hprobe : (boxMetadata f bk (osPathJoin f p)).2 = Except.error e)
    (hek : e.kind = ErrKind.metadataError) :
    (boxUpload f bk p).1 = (boxMetadata f bk (osPathJoin f p)).1 ++
      [BoxReq.uploadCreate (boxIdOf (osPathJoin f p))
        (nameOf (osPathJoin f p))] ∧
    (∀ r c, (boxUpload f bk p).2 = Except.ok (r, c) →
      c = true ∧ ∃ item, r = boxFileMetadataSerialized item f) := by
  constructor
  · simp only [boxUpload, BoxPath.make_id]
    split
    · rename_i e' heq
      rw [hprobe] at heq
      rw [Except.error.injEq] at heq
      subst heq
      rw [if_pos hek]
      split
      · rfl
      · split <;> rfl
    · rename_i l heq
      rw [hprobe] at heq
      simp at heq
    · rename_i m heq
      rw [hprobe] at heq
      simp at heq
  · intro r c h
    simp only [boxUpload, BoxPath.make_id] at h
    split at h
    · rename_i e' heq
      rw [hprobe] at heq
      rw [Except.error.injEq] at heq
      subst heq
      rw [if_pos hek] at h
      split at h
      · simp at h
      · split at h
        · rename_i item hitem
          simp at h
          exact ⟨h.2, item, h.1.symm⟩
        · simp at h
    · rename_i l heq
      rw [hprobe] at heq
      simp at heq
    · rename_i m heq
      rw [hprobe] at heq
      simp at heq

theorem boxUpload_probe_error_propagates (f : String) (bk : BoxBackend)
    (p : String) (e : WBError)
    (hprobe : (boxMetadata f bk (osPathJoin f p)).2 = Except.error e)
    (hek : e.kind ≠ ErrKind.metadataError) :
    boxUpload f bk p = ((boxMetadata f bk (osPathJoin f p)).1, Except.error e) := by
  simp only [boxUpload, BoxPath.make_id]
  split
  · rename_i e' heq
    rw [hprobe] at heq
    rw [Except.error.injEq] at heq
    subst heq
    rw [if_neg hek]
  · rename_i l heq
    rw [hprobe] at heq
    simp at heq
  · rename_i m heq
    rw [hprobe] at heq
    simp at heq

theorem boxUpload_updated_false (f : String) (bk : BoxBackend) (p : String)
    (m : MetadataRecord)
    (hprobe : (boxMetadata f bk (osPathJoin f p)).2 =
      Except.ok (BoxMeta.file m)) :
    (boxUpload f bk p).1 = (boxMetadata f bk (osPathJoin f p)).1 ++
      [BoxReq.uploadUpdate (boxIdOf m.path) (boxIdOf (osPathJoin f p))
        (nameOf (osPathJoin f p))] ∧
    (∀ r c, (boxUpload f bk p).2 = Except.ok (r, c) →
      c = false ∧ ∃ item, r = boxFileMetadataSerialized item f) := by
  constructor
  · simp only [boxUpload, BoxPath.make_id]
    split
    · rename_i e' heq
      rw [hprobe] at heq
      simp at heq
    · rename_i l heq
      rw [hprobe] at heq
      simp at heq
    · rename_i m' heq
      rw [hprobe] at heq
      simp only [Except.ok.injEq, BoxMeta.file.injEq] at heq
      subst heq
      split
      · rfl
      · split <;> rfl
  · intro r c h
    simp only [boxUpload, BoxPath.make_id] at h
    split at h
    · rename_i e' heq
      rw [hprobe] at heq
      simp at heq
    · rename_i l heq
      rw [hprobe] at heq
      simp at heq
    · rename_i m' heq
      rw [hprobe] at heq
      simp only [Except.ok.injEq, BoxMeta.file.injEq] at heq
      subst heq
      split at h
      · simp at h
      · split at h
        · rename_i item hitem
          simp at h
          exact ⟨h.2, item, h.1.symm⟩
        · simp at h

theorem boxUpload_folder_crash (f : String) (bk : BoxBackend) (p : String)
    (l : List MetadataRecord)
    (hprobe : (boxMetadata f bk (osPathJoin f p)).2 =
      Except.ok (BoxMeta.folder l)) :
    boxUpload f bk p =
      ((boxMetadata f bk (osPathJoin f p)).1,
        Except.error ⟨ErrKind.crash, none⟩) := by
  simp only [boxUpload, BoxPath.make_id]
  split
  · rename_i e' heq
    rw [hprobe] at heq
    simp at heq
  · rfl
  · rename_i m' heq
    rw [hprobe] at heq
    simp at heq

theorem boxDownload_error_code (bk : BoxBackend) (p : String)
    (rev : Option String) (e : WBError) (c : Nat)
    (h : (boxDownload bk p rev).2 = Except.error e) (hc : e.code = some c) :
    e.kind = ErrKind.downloadError ∧ c ≠ 200 := by
  simp only [boxDownload, BoxPath.make_id] at h
  split at h <;>
  · obtain ⟨hk, _, hcod, hout⟩ := downloadBranch_error _ _ e h
    rw [hcod] at hc
    rw [Option.some_inj] at hc
    exact ⟨hk, hc ▸ hout⟩

theorem boxUpload_error_code (f : String) (bk : BoxBackend) (p : String)
    (e : WBError) (c : Nat) (h : (boxUpload f bk p).2 = Except.error e)
    (hc : e.code = some c) :
    e.kind = ErrKind.uploadError ∧ c ≠ 200 ∧ c ≠ 201 := by
  simp only [boxUpload, BoxPath.make_id] at h
  split at h
  · rename_i e' heq
    split at h
    · rename_i hek
      split at h
      · rename_i e'' he''
        simp at h
        subst h
        obtain ⟨hk, hcod, hout⟩ := makeRequest_eq_error _ _ _ _ he''
        rw [hcod] at hc
        rw [Option.some_inj] at hc
        subst hc
        simp at hout
        exact ⟨hk, hout⟩
      · split at h
        · simp at h
        · simp at h
          subst h
          simp at hc
    · rename_i hek
      simp at h
      subst h
      obtain ⟨hk, -⟩ := boxMetadata_error_code f bk (osPathJoin f p) _ c heq hc
      exact absurd hk hek
  · simp at h
    subst h
    simp at hc
  · rename_i m heq
    split at h
    · rename_i e'' he''
      simp at h
      subst h
      obtain ⟨hk, hcod, hout⟩ := makeRequest_eq_error _ _ _ _ he''
      rw [hcod] at hc
      rw [Option.some_inj] at hc
      subst hc
      simp at hout
      exact ⟨hk, hout⟩
    · split at h
      · simp at h
      · simp at h
        subst h
        simp at hc

theorem boxDelete_error_code (f : String) (bk : BoxBackend) (p : String)
    (e : WBError) (c : Nat) (h : (boxDelete f bk p).2 = Except.error e)
    (hc : e.code = some c) :
    (e.kind = ErrKind.deleteError ∧ c ≠ 204) ∨
      (e.kind = ErrKind.metadataError ∧ c ≠ 200) := by
  simp only [boxDelete, BoxPath.make_id] at h
  split at h
  · rename_i e' heq
    simp at h
    subst h
    exact Or.inr (boxMetadata_error_code f bk p _ c heq hc)
  · split at h
    · rename_i e'' he''
      simp at h
      subst h
      obtain ⟨hk, hcod, hout⟩ := makeRequest_eq_error _ _ _ _ he''
      rw [hcod] at hc
      rw [Option.some_inj] at hc
      subst hc
      simp at hout
      exact Or.inl ⟨hk, hout⟩
    · simp at h

theorem boxRevisions_error_code (f : String) (bk : BoxBackend) (p : String)
    (e : WBError) (c : Nat) (h : (boxRevisions f bk p).2 = Except.error e)
    (hc : e.code = some c) :
    (e.kind = ErrKind.revisionsError ∧ c ≠ 200) ∨
      (e.kind = ErrKind.metadataError ∧ c ≠ 200) := by
  simp only [boxRevisions, BoxPath.make_id] at h
  split at h
  · rename_i e' he'
    simp at h
    subst h
    obtain ⟨hk, hcod, hout⟩ := makeRequest_eq_error _ _ _ _ he'
    rw [hcod] at hc
    rw [Option.some_inj] at hc
    subst hc
    simp at hout
    exact Or.inl ⟨hk, hout⟩
  · split at h
    · rename_i e' heq
      simp at h
      subst h
      exact Or.inr (boxMetadata_error_code f bk p _ c heq hc)
    · simp at h
      subst h
      simp at hc
    · split at h
      · simp at h
      · simp at h
        subst h
        simp at hc

theorem ocMetadataFile_error_code (wb : String) (bk : OCBackend) (p : String)
    (e : WBError) (c : Nat) (h : (ocMetadataFile wb bk p).2 = Except.error e)
    (hc : e.code = some c) :
    e.kind = ErrKind.metadataError ∧ c ≠ 207 := by
  simp only [ocMetadataFile] at h
  split at h
  · rename_i e' he'
    simp at h
    subst h
    obtain ⟨hk, hcod, hout⟩ := makeRequest_eq_error _ _ _ _ he'
    rw [hcod] at hc
    rw [Option.some_inj] at hc
    subst hc
    simp at hout
    exact ⟨hk, hout⟩
  · split at h
    · simp at h
      subst h
      simp at hc
    · split at h
      · simp at h
        subst h
        simp at hc
      · split at h
        · simp at h
          subst h
          simp at hc
        · simp at h

theorem ocMetadata_error_code (wb : String) (bk : OCBackend) (p : String)
    (e : WBError) (c : Nat) (h : (ocMetadata wb bk p).2 = Except.error e)
    (hc : e.code = some c) :
    e.kind = ErrKind.metadataError ∧ c ≠ 207 := by
  simp only [ocMetadata] at h
  split at h
  · simp at h
  · rcases hf : (ocMetadataFile wb bk p).2 with e' | v <;>
      rw [hf] at h <;> simp [Except.map] at h
    subst h
    exact ocMetadataFile_error_code wb bk p _ c hf hc

theorem ocDownload_error_code (wb : String) (bk : OCBackend) (p : String)
    (e : WBError) (c : Nat) (h : (ocDownload wb bk p).2 = Except.error e)
    (hc : e.code = some c) :
    e.kind = ErrKind.downloadError ∧ c ≠ 200 := by
  simp only [ocDownload] at h
  split at h
  · simp at h
    subst h
    simp at hc
    subst hc
    exact ⟨rfl, by decide⟩
  · split at h
    · rename_i e' he'
      simp at h
      subst h
      obtain ⟨hk, hcod, hout⟩ := makeRequest_eq_error _ _ _ _ he'
      rw [hcod] at hc
      rw [Option.some_inj] at hc
      subst hc
      simp at hout
      exact ⟨hk, hout⟩
    · simp at h

theorem ocUpload_error_code (wb : String) (bk : OCBackend) (sz : Nat)
    (p : String) (e : WBError) (c : Nat)
    (h : (ocUpload wb bk sz p).2 = Except.error e) (hc : e.code = some c) :
    e.kind = ErrKind.uploadError ∧ c ≠ 201 := by
  simp only [ocUpload] at h
  split at h
  · rename_i e' he'
    simp at h
    subst h
    obtain ⟨hk, hcod, hout⟩ := makeRequest_eq_error _ _ _ _ he'
    rw [hcod] at hc
    rw [Option.some_inj] at hc
    subst hc
    simp at hout
    exact ⟨hk, hout⟩
  · simp at h

theorem ocDelete_error_code (wb : String) (bk : OCBackend) (p : String)
    (e : WBError) (c : Nat) (h : (ocDelete wb bk p).2 = Except.error e)
    (hc : e.code = some c) :
    e.kind = ErrKind.deleteError ∧ c ≠ 204 := by
  simp only [ocDelete] at h
  split at h
  · rename_i e' he'
    simp at h
    subst h
    obtain ⟨hk, hcod, hout⟩ := makeRequest_eq_error _ _ _ _ he'
    rw [hcod] at hc
    rw [Option.some_inj] at hc
    subst hc
    simp at hout
    exact ⟨hk, hout⟩
  · simp at h

theorem boxDownload_trace_nodup (bk : BoxBackend) (p : String)
    (rev : Option String) : (boxDownload bk p rev).1.Nodup := by
  simp only [boxDownload, BoxPath.make_id]
  split <;> (split <;> simp)

theorem boxMetadata_trace_nodup (f : String) (bk : BoxBackend) (p : String) :
    (boxMetadata f bk p).1.Nodup := by
  rcases boxMetadata_trace f bk p with h | h <;> simp [h]

theorem boxUpload_trace_nodup (f : String) (bk : BoxBackend) (p : String) :
    (boxUpload f bk p).1.Nodup := by
  rcases hpr : (boxMetadata f bk (osPathJoin f p)).2 with e | m
  · by_cases hek : e.kind = ErrKind.metadataError
    · rw [(boxUpload_created_true f bk p e hpr hek).1]
      rcases boxMetadata_trace f bk (osPathJoin f p) with h | h <;> simp [h]
    · rw [boxUpload_probe_error_propagates f bk p e hpr hek]
      rcases boxMetadata_trace f bk (osPathJoin f p) with h | h <;> simp [h]
  · cases m with
    | file m =>
      rw [(boxUpload_updated_false f bk p m hpr).1]
      rcases boxMetadata_trace f bk (osPathJoin f p) with h | h <;> simp [h]
    | folder l =>
      rw [boxUpload_folder_crash f bk p l hpr]
      rcases boxMetadata_trace f bk (osPathJoin f p) with h | h <;> simp [h]

theorem boxDelete_trace_nodup (f : String) (bk : BoxBackend) (p : String) :
    (boxDelete f bk p).1.Nodup := by
  simp only [boxDelete, BoxPath.make_id]
  split
  · exact boxMetadata_trace_nodup f bk p
  · split <;>
      (rcases boxMetadata_trace f bk p with h | h <;> simp [h])

theorem boxRevisions_trace_nodup (f : String) (bk : BoxBackend)
    (p : String) : (boxRevisions f bk p).1.Nodup := by
  simp only [boxRevisions, BoxPath.make_id]
  split
  · simp
  · split
    · rcases boxMetadata_trace f bk p with h | h <;> simp [h]
    · rcases boxMetadata_trace f bk p with h | h <;> simp [h]
    · split <;>
        (rcases boxMetadata_trace f bk p with h | h <;> simp [h])

theorem ocMetadata_trace_nodup (wb : String) (bk : OCBackend) (p : String) :
    (ocMetadata wb bk p).1.Nodup := by
  simp only [ocMetadata, ocMetadataFile]
  split
  · simp
  · split
    · simp
    · split
      · simp
      · split
        · simp
        · split <;> simp

theorem ocDownload_trace_nodup (wb : String) (bk : OCBackend) (p : String) :
    (ocDownload wb bk p).1.Nodup := by
  simp only [ocDownload]
  split
  · simp
  · split <;> simp

theorem ocUpload_trace_nodup (wb : String) (bk : OCBackend) (sz : Nat)
    (p : String) : (ocUpload wb bk sz p).1.Nodup := by
  simp only [ocUpload]
  split <;> simp

theorem ocDelete_trace_nodup (wb : String) (bk : OCBackend) (p : String) :
    (ocDelete wb bk p).1.Nodup := by
  simp only [ocDelete]
  split <;> simp

/-- C4 counterexample: against a backend answering 500 to every request, the
Box adapter's `delete` of `/123/f.txt` — an operation whose declared success
set is 204, so 500 lies outside it — raises `MetadataError` (from its
internal existence probe), not `DeleteError`. -/
theorem c4_counterexample :
    boxDelete "0" bkBox500 "/123/f.txt" =
      ([BoxReq.fileMeta "123"],
        Except.error ⟨ErrKind.metadataError, some 500⟩) ∧
    ErrKind.metadataError ≠ ErrKind.deleteError :=
  ⟨by rfl, by decide⟩

/-- C4 amended: every status-triggered error (one carrying a response status
code) raised by any operation of either adapter is the error kind declared at
the failing request's call site with that out-of-success-set status — the
operation family's kind for the operation's own backend request, but
`MetadataError` when the failing request was the internal metadata probe of
the Box adapter's `delete` or `revisions`; and no operation retries: every
operation's request trace is duplicate-free. -/
theorem c4_amended_error_kinds :
    (∀ bk p rev e c, (boxDownload bk p rev).2 = Except.error e →
      e.code = some c → e.kind = ErrKind.downloadError ∧ c ≠ 200) ∧
    (∀ f bk p e c, (boxMetadata f bk p).2 = Except.error e →
      e.code = some c → e.kind = ErrKind.metadataError ∧ c ≠ 200) ∧
    (∀ f bk p e c, (boxUpload f bk p).2 = Except.error e →
      e.code = some c →
      e.kind = ErrKind.uploadError ∧ c ≠ 200 ∧ c ≠ 201) ∧
    (∀ f bk p e c, (boxDelete f bk p).2 = Except.error e →
      e.code = some c →
      (e.kind = ErrKind.deleteError ∧ c ≠ 204) ∨
        (e.kind = ErrKind.metadataError ∧ c ≠ 200)) ∧
    (∀ f bk p e c, (boxRevisions f bk p).2 = Except.error e →
      e.code = some c →
      (e.kind = ErrKind.revisionsError ∧ c ≠ 200) ∨
        (e.kind = ErrKind.metadataError ∧ c ≠ 200)) ∧
    (∀ wb bk p e c, (ocMetadata wb bk p).2 = Except.error e →
      e.code = some c → e.kind = ErrKind.metadataError ∧ c ≠ 207) ∧
    (∀ wb bk p e c, (ocDownload wb bk p).2 = Except.error e →
      e.code = some c → e.kind = ErrKind.downloadError ∧ c ≠ 200) ∧
    (∀ wb bk sz p e c, (ocUpload wb bk sz p).2 = Except.error e →
      e.code = some c → e.kind = ErrKind.uploadError ∧ c ≠ 201) ∧
    (∀ wb bk p e c, (ocDelete wb bk p).2 = Except.error e →
      e.code = some c → e.kind = ErrKind.deleteError ∧ c ≠ 204) ∧
    (∀ bk p rev, (boxDownload bk p rev).1.Nodup) ∧
    (∀ f bk p, (boxMetadata f bk p).1.Nodup) ∧
    (∀ f bk p, (boxUpload f bk p).1.Nodup) ∧
    (∀ f bk p, (boxDelete f bk p).1.Nodup) ∧
    (∀ f bk p, (boxRevisions f bk p).1.Nodup) ∧
    (∀ wb bk p, (ocMetadata wb bk p).1.Nodup) ∧
    (∀ wb bk p, (ocDownload wb bk p).1.Nodup) ∧
    (∀ wb bk sz p, (ocUpload wb bk sz p).1.Nodup) ∧
    (∀ wb bk p, (ocDelete wb bk p).1.Nodup) :=
  ⟨boxDownload_error_code, boxMetadata_error_code, boxUpload_error_code,
   boxDelete_error_code, boxRevisions_error_code, ocMetadata_error_code,
   ocDownload_error_code, ocUpload_error_code, ocDelete_error_code,
   boxDownload_trace_nodup, boxMetadata_trace_nodup, boxUpload_trace_nodup,
   boxDelete_trace_nodup, boxRevisions_trace_nodup, ocMetadata_trace_nodup,
   ocDownload_trace_nodup, ocUpload_trace_nodup, ocDelete_trace_nodup⟩

/-- C1: the Box adapter's `upload` performs a create-upload — against the
identity token of the joined request path, which addresses the parent folder
— if and only if the `metadata` probe failed with `MetadataError`, reporting
`created = true`; when the probe succeeds with a file record it performs an
update-upload against the identifier taken from the metadata result's path
(not the one re-derived from the request path), reporting `created = false`. -/
theorem c1_box_upload_disambiguation (f : String) (bk : BoxBackend)
    (p : String) :
    ((∃ pid nm, BoxReq.uploadCreate pid nm ∈ (boxUpload f bk p).1) ↔
      (∃ e, (boxMetadata f bk (osPathJoin f p)).2 = Except.error e ∧
        e.kind = ErrKind.metadataError)) ∧
    (∀ e, (boxMetadata f bk (osPathJoin f p)).2 = Except.error e →
      e.kind = ErrKind.metadataError →
      (boxUpload f bk p).1 = (boxMetadata f bk (osPathJoin f p)).1 ++
        [BoxReq.uploadCreate (boxIdOf (osPathJoin f p))
          (nameOf (osPathJoin f p))] ∧
      (∀ r c, (boxUpload f bk p).2 = Except.ok (r, c) → c = true)) ∧
    (∀ m, (boxMetadata f bk (osPathJoin f p)).2 =
        Except.ok (BoxMeta.file m) →
      (boxUpload f bk p).1 = (boxMetadata f bk (osPathJoin f p)).1 ++
        [BoxReq.uploadUpdate (boxIdOf m.path) (boxIdOf (osPathJoin f p))
          (nameOf (osPathJoin f p))] ∧
      (∀ r c, (boxUpload f bk p).2 = Except.ok (r, c) → c = false)) := by
  refine ⟨⟨?_, ?_⟩, ?_, ?_⟩
  · rintro ⟨pid, nm, hmem⟩
    rcases hpr : (boxMetadata f bk (osPathJoin f p)).2 with e | m
    · by_cases hek : e.kind = ErrKind.metadataError
      · exact ⟨e, rfl, hek⟩
      · have hprop := boxUpload_probe_error_propagates f bk p e hpr hek
        rw [hprop] at hmem
        exact absurd hmem (boxMetadata_no_create f bk _ pid nm)
    · cases m with
      | file m =>
        have ht := (boxUpload_updated_false f bk p m hpr).1
        rw [ht] at hmem
        simp only [List.mem_append, List.mem_singleton] at hmem
        rcases hmem with hmem | hmem
        · exact absurd hmem (boxMetadata_no_create f bk _ pid nm)
        · cases hmem
      | folder l =>
        have hcr := boxUpload_folder_crash f bk p l hpr
        rw [hcr] at hmem
        exact absurd hmem (boxMetadata_no_create f bk _ pid nm)
  · rintro ⟨e, hpr, hek⟩
    have ht := (boxUpload_created_true f bk p e hpr hek).1
    rw [ht]
    exact ⟨boxIdOf (osPathJoin f p), nameOf (osPathJoin f p), by simp⟩
  · intro e hpr hek
    obtain ⟨ht, hflag⟩ := boxUpload_created_true f bk p e hpr hek
    exact ⟨ht, fun r c hh => (hflag r c hh).1⟩
  · intro m hpr
    obtain ⟨ht, hflag⟩ := boxUpload_updated_false f bk p m hpr
    exact ⟨ht, fun r c hh => (hflag r c hh).1⟩

/-- C2 counterexample: the OwnCloud adapter's upload returns the bare value
`true` even against a backend on which the target path already exists (its
PUT overwrites in place), so a repeated upload never reports
`created = false`; and the Box adapter's returned record carries the path
built from the backend's response entry (fresh id `999`), which differs from
the request path. -/
theorem c2_counterexample :
    ((ocUpload "base/" bkOCPlain 5 "/a.txt").2 = Except.ok true ∧
      (ocUpload "base/" bkOCPlain 5 "/a.txt").2 ≠ Except.ok false) ∧
    ((boxUpload "0" bkBoxAbsent "/123/f.txt").2 =
        Except.ok (⟨"f.txt", "/999/f.txt"⟩, true) ∧
      ("/999/f.txt" : String) ≠ "/123/f.txt") := by
  refine ⟨⟨by rfl, fun h => ?_⟩, by rfl, by decide⟩
  exact Bool.noConfusion (Except.ok.inj h)

/-- C2 amended: the Box adapter's `upload` returns a metadata record paired
with a created flag that is true exactly when the metadata probe failed with
`MetadataError`, the record being serialized from the backend's upload
response entry (so its path reflects the backend's answer, not necessarily
the request path); the OwnCloud adapter's `upload` returns only the bare
value `true` on success and reports no created flag or record at all. -/
theorem c2_amended_upload_created (f : String) (bk : BoxBackend) (p : String)
    (wb : String) (ock : OCBackend) (sz : Nat) (q : String) :
    (∀ r c, (boxUpload f bk p).2 = Except.ok (r, c) →
      ((c = true ↔ ∃ e, (boxMetadata f bk (osPathJoin f p)).2 =
          Except.error e ∧ e.kind = ErrKind.metadataError) ∧
        ∃ item, r = boxFileMetadataSerialized item f)) ∧
    ((ocUpload wb ock sz q).2 = Except.ok true ∨
      ∃ e, (ocUpload wb ock sz q).2 = Except.error e ∧
        e.kind = ErrKind.uploadError) := by
  constructor
  · intro r c h
    rcases hpr : (boxMetadata f bk (osPathJoin f p)).2 with e | m
    · by_cases hek : e.kind = ErrKind.metadataError
      · obtain ⟨-, hflag⟩ := boxUpload_created_true f bk p e hpr hek
        obtain ⟨hc, hitem⟩ := hflag r c h
        subst hc
        exact ⟨⟨fun _ => ⟨e, rfl, hek⟩, fun _ => rfl⟩, hitem⟩
      · have hprop := boxUpload_probe_error_propagates f bk p e hpr hek
        rw [hprop] at h
        simp at h
    · cases m with
      | file m =>
        obtain ⟨-, hflag⟩ := boxUpload_updated_false f bk p m hpr
        obtain ⟨hc, hitem⟩ := hflag r c h
        subst hc
        refine ⟨⟨fun hcc => Bool.noConfusion hcc, ?_⟩, hitem⟩
        rintro ⟨e, he, -⟩
        simp at he
      | folder l =>
        have hcr := boxUpload_folder_crash f bk p l hpr
        rw [hcr] at h
        simp at h
  · rcases hr : (ocUpload wb ock sz q).2 with e | b
    · refine Or.inr ⟨e, rfl, ?_⟩
      simp only [ocUpload] at hr
      split at hr
      · rename_i e' he'
        simp at hr
        subst hr
        exact (makeRequest_eq_error _ _ _ _ he').1
      · simp at hr
    · refine Or.inl ?_
      have hr' := hr
      simp only [ocUpload] at hr'
      split at hr'
      · simp at hr'
      · simp only [Except.ok.injEq] at hr'
        rw [← hr']

/-- C5: the Box adapter's `delete` first confirms the target through
`metadata` — when the probe fails, no destructive request is issued at all —
and a failing destructive call raises `DeleteError` with its status; the
OwnCloud adapter issues the destructive call directly with no probe (leaning
on the backend's delete response to distinguish an absent target), raising
`DeleteError` that preserves the non-204 response status. -/
theorem c5_delete_probe_before_destroy (f : String) (bk : BoxBackend)
    (p : String) (wb : String) (ock : OCBackend) (q : String) :
    ((∀ e, (boxMetadata f bk p).2 = Except.error e →
        boxDelete f bk p = ((boxMetadata f bk p).1, Except.error e) ∧
        ∀ id, BoxReq.deleteFile id ∉ (boxDelete f bk p).1) ∧
     (∀ m, (boxMetadata f bk p).2 = Except.ok m →
        (boxDelete f bk p).1 =
          (boxMetadata f bk p).1 ++ [BoxReq.deleteFile (boxIdOf p)] ∧
        (∀ e, (boxDelete f bk p).2 = Except.error e →
          e.kind = ErrKind.deleteError ∧
          e.code = some ((bk (BoxReq.deleteFile (boxIdOf p))).status) ∧
          (bk (BoxReq.deleteFile (boxIdOf p))).status ≠ 204))) ∧
    ((ocDelete wb ock q).1 = [OCReq.delete (wb ++ q)] ∧
     (∀ e, (ocDelete wb ock q).2 = Except.error e →
        e.kind = ErrKind.deleteError ∧
        e.code = some ((ock (OCReq.delete (wb ++ q))).status) ∧
        (ock (OCReq.delete (wb ++ q))).status ≠ 204)) := by
  refine ⟨⟨?_, ?_⟩, ?_, ?_⟩
  · intro e he
    have hd : boxDelete f bk p = ((boxMetadata f bk p).1, Except.error e) := by
      simp only [boxDelete, BoxPath.make_id]
      rw [he]
    refine ⟨hd, fun id => ?_⟩
    rw [hd]
    exact boxMetadata_no_delete f bk p id
  · intro m hm
    constructor
    · simp only [boxDelete, BoxPath.make_id]
      split
      · rename_i e' heq
        rw [hm] at heq
        simp at heq
      · split <;> rfl
    · intro e he
      simp only [boxDelete, BoxPath.make_id] at he
      split at he
      · rename_i e' heq
        rw [hm] at heq
        simp at heq
      · split at he
        · rename_i e' he'
          simp at he
          subst he
          obtain ⟨hk, hc, hout⟩ := makeRequest_eq_error _ _ _ _ he'
          exact ⟨hk, hc, by simpa using hout⟩
        · simp at he
  · simp only [ocDelete]
    split <;> rfl
  · intro e he
    simp only [ocDelete] at he
    split at he
    · rename_i e' he'
      simp at he
      subst he
      obtain ⟨hk, hc, hout⟩ := makeRequest_eq_error _ _ _ _ he'
      exact ⟨hk, hc, by simpa using hout⟩
    · simp at he

/-- C7: OwnCloud file-metadata retrieval issues a PROPFIND whose only
accepted status is 207 (any other status raises `MetadataError` carrying it),
and on a 207 it extracts exactly the property set of the first child with the
qualified tag `\x7bDAV:\x7dpropstat` of the first response element — matched
by exact qualified name — into the flat mapping of (qualified tag, text)
pairs handed to the metadata record. -/
theorem c7_oc_propfind_first_propstat (wb : String) (bk : OCBackend)
    (p : String) :
    (∀ e, (ocMetadataFile wb bk p).2 = Except.error e → e.code ≠ none →
      e.kind = ErrKind.metadataError ∧
      e.code = some ((bk (OCReq.propfind (wb ++ p))).status) ∧
      (bk (OCReq.propfind (wb ++ p))).status ≠ 207) ∧
    ((bk (OCReq.propfind (wb ++ p))).status = 207 →
      ∀ first ps pr,
        (bk (OCReq.propfind (wb ++ p))).xml.children.head? = some first →
        first.findTag davPropstat = some ps →
        ps.findTag davProp = some pr →
        ocMetadataFile wb bk p =
          ([OCReq.propfind (wb ++ p)],
            Except.ok { path := p
                      , attrs := pr.children.map (fun a => (a.tag, a.text)) })) := by
  constructor
  · intro e he hcode
    simp only [ocMetadataFile] at he
    split at he
    · rename_i e' he'
      simp at he
      subst he
      obtain ⟨hk, hc, hout⟩ := makeRequest_eq_error _ _ _ _ he'
      exact ⟨hk, hc, by simpa using hout⟩
    · split at he
      · simp at he
        subst he
        simp at hcode
      · split at he
        · simp at he
          subst he
          simp at hcode
        · split at he
          · simp at he
            subst he
            simp at hcode
          · simp at he
  · intro hst first ps pr h1 h2 h3
    have hmk := makeRequest_eq_ok ((bk (OCReq.propfind (wb ++ p))).status)
      [207] ErrKind.metadataError (by simp [hst])
    simp only [ocMetadataFile, hmk, h1, h2, h3]

/-- Witness for C7: against `bkOCTree`, whose response carries a decoy
element with the unqualified tag `propstat` and two qualified propstat
blocks, the extracted mapping is the first qualified block's property set. -/
theorem c7_oc_propfind_first_propstat_witness :
    ocMetadataFile "base/" bkOCTree "/a.txt" =
      ([OCReq.propfind "base//a.txt"],
        Except.ok
          { path := "/a.txt"
          , attrs := [("\x7bDAV:\x7dgetcontentlength", some "5"),
                      ("\x7bDAV:\x7dgetetag", some "etag1")] }) :=
  (c7_oc_propfind_first_propstat "base/" bkOCTree "/a.txt").2 (by rfl)
    (ocTree.children.headD (XmlNode.elem "" none []))
    ((ocTree.children.headD (XmlNode.elem "" none [])).children.getD 1
      (XmlNode.elem "" none []))
    (((ocTree.children.headD (XmlNode.elem "" none [])).children.getD 1
      (XmlNode.elem "" none [])).children.headD (XmlNode.elem "" none []))
    (by rfl) (by rfl) (by rfl)

/-- C8: for every path string accepted by the Box path type (nonempty,
beginning at the namespace root separator), the identity token is computed at
construction from the raw string alone: for the root path it is the string
`/` itself, and for every other path it is exactly the first segment after
the leading separator. -/
theorem c8_box_identity_token (s : String) (hacc : s.data.head? = some '/') :
    (BoxPath.make s)._id = boxIdOf s ∧
    (s = "/" → (BoxPath.make s)._id = "/") ∧
    (s ≠ "/" → (BoxPath.make s)._id = specFirstSegment s) := by
  refine ⟨rfl, fun h => by simp [BoxPath.make, boxIdOf, h], fun hne => ?_⟩
  simp only [BoxPath.make_id, boxIdOf, if_neg hne, specFirstSegment]
  rcases hd : s.data with _ | ⟨c, cs⟩
  · rw [hd] at hacc
    simp at hacc
  · rw [hd] at hacc
    simp only [List.head?] at hacc
    rw [Option.some_inj] at hacc
    subst hacc
    simp only [splitChars, if_pos rfl, List.getD, List.get?, List.drop,
      List.takeWhile]
    rcases hs : splitChars cs with _ | ⟨seg, rest⟩
    · exact absurd hs (splitChars_ne_nil cs)
    · have hh := splitChars_headD cs
      rw [hs] at hh
      simp only [List.headD] at hh
      simp [hh]

/-- Witness for C8 at the concrete accepted path `/abc/def.txt`. -/
theorem c8_box_identity_token_witness :
    ("/abc/def.txt".data.head? = some '/') ∧
    (BoxPath.make "/abc/def.txt")._id = specFirstSegment "/abc/def.txt" ∧
    specFirstSegment "/abc/def.txt" = "abc" :=
  ⟨by decide,
   (c8_box_identity_token "/abc/def.txt" (by decide)).2.2 (by decide),
   by decide⟩

/-- C9: on the OwnCloud adapter, `metadata` of any directory path (trailing
separator) returns no record, raises no error and issues no request — the
folder branch is the unimplemented `pass` stub. -/
theorem c9_oc_dir_metadata_none (wb : String) (bk : OCBackend) (p : String)
    (hdir : isDirPath p = true) :
    ocMetadata wb bk p = ([], Except.ok none) := by
  simp [ocMetadata, hdir]

/-- Witness for C9 at the concrete directory path `/docs/` against a backend
that would answer 404 to any request actually issued. -/
theorem c9_oc_dir_metadata_none_witness :
    (isDirPath "/docs/" = true) ∧
    ocMetadata "https://oc/remote.php/webdav/" bkOC404 "/docs/" =
      ([], Except.ok none) :=
  ⟨by decide,
   c9_oc_dir_metadata_none "https://oc/remote.php/webdav/" bkOC404 "/docs/"
     (by decide)⟩

/-- C10: on the OwnCloud adapter, `download` of any non-file path raises
`DownloadError` with code 400 before issuing any request, so the backend is
left untouched. -/
theorem c10_oc_download_non_file (wb : String) (bk : OCBackend) (p : String)
    (hnf : isFilePath p = false) :
    ocDownload wb bk p = ([], Except.error ⟨ErrKind.downloadError, some 400⟩) := by
  simp [ocDownload, hnf]

/-- Witness for C10 at the concrete directory path `/docs/` against a backend
on which a GET would succeed were it issued. -/
theorem c10_oc_download_non_file_witness :
    (isFilePath "/docs/" = false) ∧
    ocDownload "https://oc/remote.php/webdav/" bkOCPlain "/docs/" =
      ([], Except.error ⟨ErrKind.downloadError, some 400⟩) :=
  ⟨by decide,
   c10_oc_download_non_file "https://oc/remote.php/webdav/" bkOCPlain "/docs/"
     (by decide)⟩

end WaterButler
